import Mathlib

/-!
Verification development for the lse-classgroup-switcher frontend.

The JavaScript core (planning-mode state machine, schedule projector,
conflict detector, time-overlap utility) is shallowly embedded below.
JS strings are Lean `String`s (with character-level helpers on `List Char`),
JS numbers that can be `NaN` are `Option Int` (`none` = NaN),
JS `Map`s are insertion-ordered association lists,
JS `Set`s are insertion-ordered duplicate-free lists.

Sources embedded:
- conflictDetector (src/unnamed/part_000): `timeToMinutes`, `sessionsConflict`,
  `detectConflicts`, `hasConflict`;
- planning state machine (src/unnamed/part_003, textually identical in the
  relevant parts to src/js/planningState.js): `enterPlanningMode`,
  `exitPlanningMode`, `selectTutorialGroup`, `getSelectedGroup`,
  `handleEventClick`, `applyChanges`, preference mutations, and the
  planning-mode projector `getEventsForPlanningMode`;
- viewing-mode projector `getEventsForWeek` (src/unnamed/part_002);
- `sessionToEvent` (the utils iteration stored in src/js/authService.js,
  lines 261-311 — the only iteration whose `extendedProps` carry the
  `dayOfWeek`/`startTime`/`endTime`/`eventState` fields that the conflict
  detector of part_000 reads, hence the one consistent with the
  part_002/part_003 pipeline).
-/

namespace LSE

/-- JS whitespace test for the characters that can occur in the data
(space, tab, newline, carriage return); used to model `trim` and the
`\s` character class of the regex in `timeToMinutes`. -/
def isWS (c : Char) : Bool :=
  c = ' ' || c = '\t' || c = '\n' || c = '\r'

/-- Model of `String.prototype.trim`. -/
def jsTrim (l : List Char) : List Char :=
  ((l.dropWhile isWS).reverse.dropWhile isWS).reverse

/-- Model of `String.prototype.includes(sub)`: substring containment. -/
def jsIncludes (l sub : List Char) : Bool :=
  decide (sub <:+: l)

/-- Model of `str.replace(/[APMapm\s]/g, '')`: remove every occurrence of
the characters A, P, M, a, p, m and whitespace. -/
def stripAPM (l : List Char) : List Char :=
  l.filter (fun c =>
    !(c = 'A' || c = 'P' || c = 'M' || c = 'a' || c = 'p' || c = 'm' || isWS c))

/-- Model of `String.prototype.split(sep)` for a single-character
separator, on character lists. -/
def splitOnChar (sep : Char) : List Char → List (List Char)
  | [] => [[]]
  | c :: rest =>
    match splitOnChar sep rest with
    | [] => [[]]
    | r :: rs => if c = sep then [] :: r :: rs else (c :: r) :: rs

/-- Numeric value of a list of decimal digit characters. -/
def digitsVal (ds : List Char) : Int :=
  ds.foldl (fun a c => a * 10 + (Int.ofNat (c.toNat - 48))) 0

/-- Model of JS `parseInt(str, 10)`: skip leading whitespace, optional
sign, then the longest prefix of decimal digits; `NaN` (here `none`)
when that prefix is empty. -/
def parseIntJS (l : List Char) : Option Int :=
  let t := l.dropWhile isWS
  match t with
  | '-' :: rest =>
    let ds := rest.takeWhile Char.isDigit
    if ds = [] then none else some (-(digitsVal ds))
  | '+' :: rest =>
    let ds := rest.takeWhile Char.isDigit
    if ds = [] then none else some (digitsVal ds)
  | _ =>
    let ds := t.takeWhile Char.isDigit
    if ds = [] then none else some (digitsVal ds)

/-- Model of JS `Number(str)` as used on the pieces of `"HH:MM".split(':')`:
empty (after trimming) is 0, a string of decimal digits with optional sign
is its value, anything else is `NaN` (`none`). -/
def numberJS (l : List Char) : Option Int :=
  let t := jsTrim l
  match t with
  | [] => some 0
  | '-' :: rest => if rest ≠ [] && rest.all Char.isDigit then some (-(digitsVal rest)) else none
  | '+' :: rest => if rest ≠ [] && rest.all Char.isDigit then some (digitsVal rest) else none
  | _ => if t.all Char.isDigit then some (digitsVal t) else none

/-- Embedding of `timeToMinutes` (conflict detector, part_000 lines 33-55):
convert a time string such as "10:00" or "2:30 PM" to minutes since
midnight.  The JS function is total on strings and returns `NaN` (here
`none`) when the hour digits are missing or malformed — it has no
exception path for string input; `NaN` propagates through the arithmetic
exactly as in JS (`NaN !== 12` is true, `NaN + 12` is `NaN`). -/
def timeToMinutes (timeStr : String) : Option Int :=
  let time := jsTrim timeStr.data
  let isPM := jsIncludes time ['P', 'M'] || jsIncludes time ['p', 'm']
  let isAM := jsIncludes time ['A', 'M'] || jsIncludes time ['a', 'm']
  let cleanTime := stripAPM time
  let parts := splitOnChar ':' cleanTime
  let hoursStr : List Char := (parts.get? 0).getD []
  let minutesStr : Option (List Char) := parts.get? 1
  let hours0 : Option Int := parseIntJS hoursStr
  -- `minutesStr || '0'`: undefined or the empty string fall back to "0"
  let minutes : Option Int :=
    parseIntJS (match minutesStr with
      | none => ['0']
      | some ms => if ms = [] then ['0'] else ms)
  let hours : Option Int :=
    match hours0 with
    | none => none
    | some h =>
      if isPM && h ≠ 12 then some (h + 12)
      else if isAM && h = 12 then some 0
      else some h
  match hours, minutes with
  | some h, some m => some (h * 60 + m)
  | _, _ => none

/-- Comparison `a < b` on JS numbers where either side may be `NaN`
(`none`); any comparison against `NaN` is false. -/
def nanLt (a b : Option Int) : Bool :=
  match a, b with
  | some x, some y => decide (x < y)
  | _, _ => false

/-- The session shape consumed by `sessionsConflict` and built inside
`detectConflicts` (part_000 lines 88-100): DayOfWeek, StartTime, EndTime,
Week. -/
structure ConflictSession where
  DayOfWeek : String
  StartTime : String
  EndTime : String
  Week : Nat
  deriving Repr, DecidableEq

/-- Embedding of `sessionsConflict` (part_000 lines 11-26): two sessions
conflict when they are on the same day and their half-open time ranges
overlap (`start1 < end2 && start2 < end1`). -/
def sessionsConflict (session1 session2 : ConflictSession) : Bool :=
  if session1.DayOfWeek ≠ session2.DayOfWeek then false
  else
    let start1 := timeToMinutes session1.StartTime
    let end1 := timeToMinutes session1.EndTime
    let start2 := timeToMinutes session2.StartTime
    let end2 := timeToMinutes session2.EndTime
    nanLt start1 end2 && nanLt start2 end1

/-- The `extendedProps` of a projected calendar event, as built by
`sessionToEvent` (authService.js utils iteration, lines 295-309).
`groupId` and `instructor` are `Option` because the projector iterations
of part_002/part_003 build group objects without `GroupID`/`Teacher`
(they read back as JS `undefined`, here `none`). -/
structure EventProps where
  courseCode : String
  courseName : String
  courseId : String
  groupId : Option String
  groupType : String
  groupNumber : Nat
  instructor : Option String
  location : String
  weekNumber : Nat
  dayOfWeek : String
  startTime : String
  endTime : String
  eventState : String
  deriving Repr, DecidableEq

/-- The pieces from which `sessionToEvent` builds a JS `Date`: the week
anchor, the day offset from `dayMap` (`none` when the day name is
unknown, i.e. a NaN date), and the parsed hour/minute (`none` = NaN).
The JS `Date` is fully determined by these, so equality of events is
equality of these pieces. -/
structure JSDateSpec where
  base : Int
  dayOff : Option Nat
  hour : Option Int
  minute : Option Int
  deriving Repr, DecidableEq

/-- A projected FullCalendar event object (`startD`/`endD` stand for the
JS `start`/`end` fields; `end` is reserved in Lean). -/
structure CalEvent where
  id : String
  title : String
  startD : JSDateSpec
  endD : JSDateSpec
  classNames : List String
  extendedProps : EventProps
  deriving Repr, DecidableEq

/-- Display states that count toward a real schedule commitment — the
filter of `detectConflicts` (part_000 lines 70-73). -/
def isRelevantEvent (e : CalEvent) : Bool :=
  e.extendedProps.eventState == "enrolled" ||
  e.extendedProps.eventState == "selected" ||
  e.extendedProps.eventState == "lecture"

/-- The session record `detectConflicts` extracts from an event's
`extendedProps` (part_000 lines 88-100). -/
def toConflictSession (e : CalEvent) : ConflictSession :=
  ⟨e.extendedProps.dayOfWeek, e.extendedProps.startTime,
   e.extendedProps.endTime, e.extendedProps.weekNumber⟩

/-- The condition of the inner loop of `detectConflicts` (part_000 lines
81-106): skip same id, skip same course, then require equal week and
`sessionsConflict`. -/
def conflictPairCond (event1 event2 : CalEvent) : Bool :=
  if event1.id == event2.id then false
  else if event1.extendedProps.courseId == event2.extendedProps.courseId then false
  else
    let session1 := toConflictSession event1
    let session2 := toConflictSession event2
    (session1.Week == session2.Week) && sessionsConflict session1 session2

/-- Model of adding to a JS `Set` (insertion-ordered, duplicate-free). -/
def jsSetAdd [DecidableEq α] (s : List α) (x : α) : List α :=
  if x ∈ s then s else s ++ [x]

/-- Model of `new Set(list)`. -/
def jsSetOfList [DecidableEq α] (l : List α) : List α :=
  l.foldl jsSetAdd []

/-- Inner loop of `detectConflicts`: compare `event1` against every later
event, adding both ids to the conflict set on a hit. -/
def addConflictsFrom (event1 : CalEvent) (rest : List CalEvent) (acc : List String) :
    List String :=
  rest.foldl
    (fun acc event2 =>
      if conflictPairCond event1 event2 then jsSetAdd (jsSetAdd acc event1.id) event2.id
      else acc)
    acc

/-- Outer loop of `detectConflicts`: the double loop `i < j` over the
relevant events. -/
def conflictScan : List CalEvent → List String → List String
  | [], acc => acc
  | e :: rest, acc => conflictScan rest (addConflictsFrom e rest acc)

/-- Embedding of `detectConflicts` (part_000 lines 66-111): the set of
event ids that pairwise-conflict with a different-course event in the
same week, among events whose display state is enrolled/selected/lecture. -/
def detectConflicts (events : List CalEvent) : List String :=
  let relevantEvents := events.filter isRelevantEvent
  conflictScan relevantEvents []

/-- Embedding of `hasConflict` (part_000 lines 119-121). -/
def hasConflict (session : ConflictSession) (otherSessions : List ConflictSession) : Bool :=
  otherSessions.any (fun other => sessionsConflict session other)

/-- Model of `Map.prototype.get` / JS object indexing on an
insertion-ordered association list (`none` = `undefined`). -/
def mapGet [DecidableEq κ] : List (κ × ν) → κ → Option ν
  | [], _ => none
  | (a, b) :: m, k => if k = a then some b else mapGet m k

/-! Reference data (courses.json / sessions.json / enrollment.json shapes
of the part_002/part_003 iteration). -/

/-- A course record. -/
structure Course where
  CourseID : String
  CourseCode : String
  CourseName : String
  Terms : List String
  deriving Repr, DecidableEq

/-- A session occurrence record (`Week`, `Day`, `StartTime`, `EndTime`,
`Room`). -/
structure Session where
  Week : Nat
  Day : String
  StartTime : String
  EndTime : String
  Room : String
  deriving Repr, DecidableEq

/-- The group objects handed to `sessionToEvent`.  The part_002/part_003
projectors build them inline with only `CourseCode`, `CourseName`, `Type`
and `GroupNumber`; `GroupID` and `Teacher` are then absent (JS
`undefined`, here `none`). -/
structure Group where
  CourseCode : String
  CourseName : String
  GType : String  -- `Type` in the source; `Type` is reserved in Lean
  GroupNumber : Nat
  GroupID : Option String
  Teacher : Option String
  deriving Repr, DecidableEq

/-- Day-name-to-offset table of `sessionToEvent` (0 = Monday). -/
def dayMap : List (String × Nat) :=
  [("Mon", 0), ("Tue", 1), ("Wed", 2), ("Thu", 3), ("Fri", 4), ("Sat", 5), ("Sun", 6)]

/-- Rendering of a possibly-undefined JS value inside a template literal. -/
def jsShowOpt (s : Option String) : String :=
  match s with
  | none => "undefined"
  | some v => v

/-- Embedding of `sessionToEvent` (authService.js utils iteration, lines
261-311): turn a session plus course/group context into a FullCalendar
event object.  Time strings are split on ':' and the pieces converted
with `Number`; a missing piece destructures to `undefined` and yields a
NaN date field. -/
def sessionToEvent (session : Session) (course : Course) (group : Group)
    (weekStart : Int) (courseColor : String) (eventState : String) : CalEvent :=
  let dayOff := mapGet dayMap session.Day
  let startParts := (splitOnChar ':' session.StartTime.data).map numberJS
  let endParts := (splitOnChar ':' session.EndTime.data).map numberJS
  let startDateTime : JSDateSpec :=
    ⟨weekStart, dayOff, (startParts.get? 0).getD none, (startParts.get? 1).getD none⟩
  let endDateTime : JSDateSpec :=
    ⟨weekStart, dayOff, (endParts.get? 0).getD none, (endParts.get? 1).getD none⟩
  let eventClasses : List String :=
    [courseColor, if group.GType == "LEC" then "lecture" else "event-" ++ eventState]
  let groupDisplay : String :=
    if group.GType == "LEC" then "Lec" else group.GType ++ "-G" ++ toString group.GroupNumber
  { id := course.CourseID ++ "-" ++ jsShowOpt group.GroupID ++ "-" ++ toString session.Week
    title := course.CourseCode ++ "\n" ++ groupDisplay ++ "\n" ++ session.Room
    startD := startDateTime
    endD := endDateTime
    classNames := eventClasses
    extendedProps :=
      { courseCode := course.CourseCode
        courseName := course.CourseName
        courseId := course.CourseID
        groupId := group.GroupID
        groupType := group.GType
        groupNumber := group.GroupNumber
        instructor := group.Teacher
        location := session.Room
        weekNumber := session.Week
        dayOfWeek := session.Day
        startTime := session.StartTime
        endTime := session.EndTime
        eventState := eventState } }

/-- The application reference data the projectors read
(part_002 iteration): course list, nested session store keyed
course code → session type → group number → term code, enrollment keyed
course code → session type → group number, and the course-color index
(`courseColors.get(code).index`; modelled as a total map — every enrolled
course has an assigned color, otherwise the JS crashes before
projecting). -/
structure AppData where
  courses : List Course
  sessions : List (String × List (String × List (Nat × List (String × List Session))))
  enrollment : List (String × List (String × Nat))
  courseColors : String → Nat

/-- Embedding of `getEnrolledCoursesForTerm` (part_002 lines 411-415). -/
def getEnrolledCoursesForTerm (app : AppData) (termCode : String) : List Course :=
  app.courses.filter (fun course => course.Terms.contains termCode)

/-- The optional-chained session lookup
`this.app.sessions[code]?.[type]?.[number]?.[term]` shared by both
projectors. -/
def sessionsFor (app : AppData) (courseCode groupType : String) (groupNumber : Nat)
    (termCode : String) : Option (List Session) :=
  match mapGet app.sessions courseCode with
  | none => none
  | some byType =>
    match mapGet byType groupType with
    | none => none
    | some byNumber =>
      match mapGet byNumber groupNumber with
      | none => none
      | some byTerm => mapGet byTerm termCode

/-- The CSS class "course-color-" + color index used by both projectors. -/
def colorClassFor (app : AppData) (courseCode : String) : String :=
  "course-color-" ++ toString (app.courseColors courseCode)

/-- Shared body of every projector loop: look up the sessions of one
group for the term, keep the target week, convert each to an event with
the given display state. -/
def weekEventsFor (app : AppData) (course : Course) (groupType : String)
    (groupNumber : Nat) (termCode : String) (weekNumber : Nat) (weekStart : Int)
    (colorClass eventState : String) : List CalEvent :=
  match sessionsFor app course.CourseCode groupType groupNumber termCode with
  | none => []
  | some groupSessions =>
    (groupSessions.filter (fun s => s.Week == weekNumber)).map
      (fun session =>
        sessionToEvent session course
          ⟨course.CourseCode, course.CourseName, groupType, groupNumber, none, none⟩
          weekStart colorClass eventState)

/-- Per-course body of `getEventsForWeek` (part_002 lines 426-466). -/
def viewingCourseEvents (app : AppData) (termCode : String) (weekNumber : Nat)
    (weekStart : Int) (course : Course) : List CalEvent :=
  match mapGet app.enrollment course.CourseCode with
  | none => []
  | some enrollment =>
    enrollment.flatMap
      (fun entry =>
        weekEventsFor app course entry.1 entry.2 termCode weekNumber weekStart
          (colorClassFor app course.CourseCode)
          (if entry.1 == "LEC" then "lecture" else "enrolled"))

/-- Embedding of `getEventsForWeek` (part_002 lines 422-469): the
viewing-mode projection — every enrolled (type, group) entry of every
course of the term, lectures tagged "lecture" and the rest "enrolled". -/
def getEventsForWeek (app : AppData) (termCode : String) (weekNumber : Nat)
    (weekStart : Int) : List CalEvent :=
  (getEnrolledCoursesForTerm app termCode).flatMap
    (viewingCourseEvents app termCode weekNumber weekStart)

/-! Planning state machine (part_003 / planningState.js). -/

/-- Model of `Map.prototype.set`: replace the value in place when the key
exists, otherwise append. -/
def mapSet [DecidableEq κ] (m : List (κ × ν)) (k : κ) (v : ν) : List (κ × ν) :=
  if (mapGet m k).isSome then
    m.map (fun e => if e.1 = k then (k, v) else e)
  else m ++ [(k, v)]

/-- Model of `Map.prototype.delete`. -/
def mapDelete [DecidableEq κ] (m : List (κ × ν)) (k : κ) : List (κ × ν) :=
  m.filter (fun e => e.1 ≠ k)

/-- Model of the JS `value || fallback` idiom on strings (`undefined` and
the empty string are falsy). -/
def jsOrDefault (s : Option String) (d : String) : String :=
  match s with
  | none => d
  | some v => if v = "" then d else v

/-- A staged change record (part_003 lines 131-136).  `fromGroup`/
`toGroup` are `from`/`to` in the source (`from` is reserved in Lean). -/
structure StagedChange where
  courseId : String
  groupType : String
  fromGroup : Nat
  toGroup : Nat
  deriving Repr, DecidableEq

/-- The mutable state owned by the `PlanningState` class (part_003 lines
12-31): mode, staged changes keyed by "courseId_groupType", visible
courses, per-course detail mode, and the cached conflicting event ids. -/
structure PlanningState where
  mode : String
  stagedChanges : List (String × StagedChange)
  visibleCourses : List String
  showAlternatives : List (String × String)
  conflictingEventIds : List String
  deriving Repr, DecidableEq

/-- The constructor state (part_003 lines 13-31). -/
def initialPlanningState : PlanningState :=
  ⟨"viewing", [], [], [], []⟩

/-- Embedding of `enterPlanningMode` (part_003 lines 37-49). -/
def enterPlanningMode (enrolledCourses : List Course) (s : PlanningState) : PlanningState :=
  { mode := "planning"
    visibleCourses :=
      enrolledCourses.foldl (fun v course => jsSetAdd v course.CourseCode) s.visibleCourses
    showAlternatives :=
      enrolledCourses.foldl (fun m course => mapSet m course.CourseCode "my") s.showAlternatives
    stagedChanges := []
    conflictingEventIds := [] }

/-- Embedding of `exitPlanningMode` (part_003 lines 56-69): returns the
copied staged-changes map for a non-cancel action (else `null`), resets
mode/visibility/detail/conflict state, and clears staged changes only on
"cancel". -/
def exitPlanningMode (action : String) (s : PlanningState) :
    Option (List (String × StagedChange)) × PlanningState :=
  let changes := if action ≠ "cancel" then some s.stagedChanges else none
  (changes,
   { mode := "viewing"
     visibleCourses := []
     showAlternatives := []
     conflictingEventIds := []
     stagedChanges := if action = "cancel" then [] else s.stagedChanges })

/-- Embedding of `restorePreferences` (part_003 lines 75-82); each field
is replaced only when present in the saved state. -/
def restorePreferences (savedVisibleCourses : Option (List String))
    (savedShowAlternatives : Option (List (String × String))) (s : PlanningState) :
    PlanningState :=
  let s1 :=
    match savedVisibleCourses with
    | none => s
    | some vc => { s with visibleCourses := jsSetOfList vc }
  match savedShowAlternatives with
  | none => s1
  | some sa => { s1 with showAlternatives := sa }

/-- Embedding of `toggleCourseVisibility` (part_003 lines 99-105). -/
def toggleCourseVisibility (courseId : String) (s : PlanningState) : PlanningState :=
  if s.visibleCourses.contains courseId then
    { s with visibleCourses := s.visibleCourses.filter (fun c => c ≠ courseId) }
  else
    { s with visibleCourses := s.visibleCourses ++ [courseId] }

/-- Embedding of `setAlternativeMode` (part_003 lines 112-114). -/
def setAlternativeMode (courseId mode : String) (s : PlanningState) : PlanningState :=
  { s with showAlternatives := mapSet s.showAlternatives courseId mode }

/-- Embedding of `selectTutorialGroup` (part_003 lines 123-138): under
key "courseId_groupType", selecting the enrolled group deletes any staged
change, anything else upserts the `from`/`to` record. -/
def selectTutorialGroup (courseId groupType : String)
    (fromGroupNumber toGroupNumber : Nat) (s : PlanningState) : PlanningState :=
  let key := courseId ++ "_" ++ groupType
  if fromGroupNumber = toGroupNumber then
    { s with stagedChanges := mapDelete s.stagedChanges key }
  else
    { s with stagedChanges :=
        mapSet s.stagedChanges key ⟨courseId, groupType, fromGroupNumber, toGroupNumber⟩ }

/-- Embedding of `getSelectedGroup` (part_003 lines 147-152). -/
def getSelectedGroup (courseId groupType : String) (enrolledGroupNumber : Nat)
    (s : PlanningState) : Nat :=
  match mapGet s.stagedChanges (courseId ++ "_" ++ groupType) with
  | some stagedChange => stagedChange.toGroup
  | none => enrolledGroupNumber

/-- The caller-visible effect of `handleEventClick` besides the state
change: which callback was invoked (details, reload, or neither). -/
inductive ClickOutcome where
  | showDetails
  | reload
  | noop
  deriving Repr, DecidableEq

/-- Embedding of `handleEventClick` (part_003 lines 366-410), with the
two callbacks reified as a `ClickOutcome`.  `enrollmentData` is
`this.app.enrollment`.  The source reads `enrollment[props.groupType]`,
which is present for every event the projector emits; a missing key is
modelled by the (unreachable in well-formed data) default 0. -/
def handleEventClick (enrollmentData : List (String × List (String × Nat)))
    (props : EventProps) (s : PlanningState) : PlanningState × ClickOutcome :=
  if props.groupType == "LEC" then (s, .showDetails)
  else
    match mapGet enrollmentData props.courseId with
    | none => (s, .noop)
    | some enrollment =>
      let enrolledGroupNumber := (mapGet enrollment props.groupType).getD 0
      if props.eventState == "selected" then
        (selectTutorialGroup props.courseId props.groupType
          enrolledGroupNumber enrolledGroupNumber s, .reload)
      else if props.eventState == "enrolled" then (s, .showDetails)
      else if props.eventState == "alternative" then
        (selectTutorialGroup props.courseId props.groupType
          enrolledGroupNumber props.groupNumber s, .reload)
      else (s, .noop)

/-- The result object of `applyChanges` (part_003 lines 417-445). -/
structure ApplyResult where
  success : Bool
  message : String
  changeCount : Option Nat
  deriving Repr, DecidableEq

/-- Embedding of `applyChanges` (part_003 lines 417-445).  `userConfirms`
models the answer to the `confirm(...)` dialog (consulted only when the
cached conflict set is non-empty).  The middle component records what was
handed to `applyCallback` (`none` = the callback was never invoked). -/
def applyChanges (userConfirms : Bool) (s : PlanningState) :
    ApplyResult × Option (List (String × StagedChange)) × PlanningState :=
  if s.conflictingEventIds.length > 0 && !userConfirms then
    (⟨false, "Application cancelled", none⟩, none, s)
  else if s.stagedChanges.length = 0 then
    (⟨false, "No changes to apply", none⟩, none, s)
  else
    let changeCount := s.stagedChanges.length
    (⟨true, "Successfully applied " ++ toString changeCount ++ " change(s)!", some changeCount⟩,
     some s.stagedChanges,
     { s with stagedChanges := [] })

/-! Planning-mode projector (part_003 lines 192-358). -/

/-- Embedding of `_addLectureEvents` (part_003 lines 254-278): one event
per lecture session of the target week, tagged "lecture". -/
def addLectureEvents (app : AppData) (course : Course)
    (enrollment : List (String × Nat)) (termCode : String) (weekNumber : Nat)
    (weekStart : Int) (colorClass : String) : List CalEvent :=
  enrollment.flatMap
    (fun entry =>
      if entry.1 ≠ "LEC" then []
      else weekEventsFor app course entry.1 entry.2 termCode weekNumber weekStart
        colorClass "lecture")

/-- Embedding of `_addMySessionsEvents` (part_003 lines 284-316): the
deduplicated pair of enrolled and selected groups; a shown group is
"selected" when it is the selected one and differs from the enrolled one,
else "enrolled". -/
def addMySessionsEvents (app : AppData) (course : Course) (groupType : String)
    (enrolledGroupNumber selectedGroupNumber : Nat) (termCode : String)
    (weekNumber : Nat) (weekStart : Int) (colorClass : String) : List CalEvent :=
  (jsSetOfList [enrolledGroupNumber, selectedGroupNumber]).flatMap
    (fun groupNumber =>
      weekEventsFor app course groupType groupNumber termCode weekNumber weekStart
        colorClass
        (if groupNumber = selectedGroupNumber ∧ groupNumber ≠ enrolledGroupNumber then
          "selected"
        else "enrolled"))

/-- Embedding of `_addAllSessionsEvents` (part_003 lines 322-358): every
available group number of the (course, type) slice of the session store,
tagged selected/enrolled/alternative. -/
def addAllSessionsEvents (app : AppData) (course : Course) (groupType : String)
    (enrolledGroupNumber selectedGroupNumber : Nat) (termCode : String)
    (weekNumber : Nat) (weekStart : Int) (colorClass : String) : List CalEvent :=
  let availableGroups : List Nat :=
    match mapGet app.sessions course.CourseCode with
    | none => []
    | some byType =>
      match mapGet byType groupType with
      | none => []
      | some byNumber => byNumber.map Prod.fst
  availableGroups.flatMap
    (fun groupNumber =>
      weekEventsFor app course groupType groupNumber termCode weekNumber weekStart
        colorClass
        (if groupNumber = selectedGroupNumber ∧ groupNumber ≠ enrolledGroupNumber then
          "selected"
        else if groupNumber = enrolledGroupNumber then "enrolled"
        else "alternative"))

/-- Per-course body of the event-building loop of
`getEventsForPlanningMode` (part_003 lines 196-234): skip hidden
courses, lectures always, then tutorials per the course's detail mode
(`tutorialTypes` is `Object.keys(enrollment).filter(t => t !== 'LEC')`,
each type read back through `enrollment[groupType]`). -/
def planningCourseEvents (st : PlanningState) (app : AppData) (termCode : String)
    (weekNumber : Nat) (weekStart : Int) (course : Course) : List CalEvent :=
  if !(st.visibleCourses.contains course.CourseCode) then []
  else
    match mapGet app.enrollment course.CourseCode with
    | none => []
    | some enrollment =>
      let colorClass := colorClassFor app course.CourseCode
      let showMode := jsOrDefault (mapGet st.showAlternatives course.CourseCode) "my"
      addLectureEvents app course enrollment termCode weekNumber weekStart colorClass ++
      ((enrollment.map Prod.fst).filter (fun t => t ≠ "LEC")).flatMap
        (fun groupType =>
          let enrolledGroupNumber := (mapGet enrollment groupType).getD 0
          let selectedGroupNumber :=
            getSelectedGroup course.CourseCode groupType enrolledGroupNumber st
          if showMode == "my" then
            addMySessionsEvents app course groupType enrolledGroupNumber
              selectedGroupNumber termCode weekNumber weekStart colorClass
          else
            addAllSessionsEvents app course groupType enrolledGroupNumber
              selectedGroupNumber termCode weekNumber weekStart colorClass)

/-- The event-building phase of `getEventsForPlanningMode` (part_003
lines 192-234), before conflict detection. -/
def getEventsForPlanningModeRaw (st : PlanningState) (app : AppData)
    (termCode : String) (weekNumber : Nat) (weekStart : Int) : List CalEvent :=
  (getEnrolledCoursesForTerm app termCode).flatMap
    (planningCourseEvents st app termCode weekNumber weekStart)

/-- The conflict-marking phase of `getEventsForPlanningMode` (part_003
lines 237-245): push the "event-conflict" class onto every event whose id
is in the detected conflict set. -/
def markConflicts (conflicts : List String) (events : List CalEvent) : List CalEvent :=
  events.map
    (fun e =>
      if conflicts.contains e.id then
        { e with classNames := e.classNames ++ ["event-conflict"] }
      else e)

/-- Embedding of `getEventsForPlanningMode` (part_003 lines 192-248):
the marked event list together with the new `conflictingEventIds`. -/
def getEventsForPlanningMode (st : PlanningState) (app : AppData) (termCode : String)
    (weekNumber : Nat) (weekStart : Int) : List CalEvent × List String :=
  let events := getEventsForPlanningModeRaw st app termCode weekNumber weekStart
  let conflicts := detectConflicts events
  (markConflicts conflicts events, conflicts)

/-! Encodings of well-formed time strings, used to state the
normalization claims. -/

/-- Two-digit decimal rendering (07, 12, ...). -/
def pad2 (n : Nat) : String :=
  if n < 10 then "0" ++ toString n else toString n

/-- The 24-hour textual encoding "HH:MM". -/
def time24 (h m : Nat) : String :=
  pad2 h ++ ":" ++ pad2 m

/-- The 12-hour textual encoding "H:MM AM" / "H:MM PM". -/
def time12 (h m : Nat) (suffix : String) : String :=
  toString h ++ ":" ++ pad2 m ++ " " ++ suffix

/-- The staged-changes invariant of the specification: no stored staged
change is a no-op (`to == from`). -/
def stagedInv (s : PlanningState) : Prop :=
  ∀ kc ∈ s.stagedChanges, kc.2.toGroup ≠ kc.2.fromGroup

instance stagedInvDecidable (s : PlanningState) : Decidable (stagedInv s) :=
  inferInstanceAs (Decidable (∀ kc ∈ s.stagedChanges, kc.2.toGroup ≠ kc.2.fromGroup))

/-! Concrete fixtures for counterexamples and witnesses. -/

/-- A planning-mode state holding one staged change (EC101 CLA group 1 →
group 2). -/
def exStagedState : PlanningState :=
  ⟨"planning", [("EC101_CLA", ⟨"EC101", "CLA", 1, 2⟩)], ["EC101"], [("EC101", "my")], []⟩

/-- Two courses A and B, each enrolled in one CLA group whose only week-1
sessions overlap on Monday morning (09:00-10:00 vs 09:30-10:30). -/
def appOverlap : AppData :=
  { courses :=
      [⟨"IDA", "A", "Course A", ["AT"]⟩, ⟨"IDB", "B", "Course B", ["AT"]⟩]
    sessions :=
      [("A", [("CLA", [(1, [("AT", [⟨1, "Mon", "09:00", "10:00", "R1"⟩])])])]),
       ("B", [("CLA", [(1, [("AT", [⟨1, "Mon", "09:30", "10:30", "R2"⟩])])])])]
    enrollment := [("A", [("CLA", 1)]), ("B", [("CLA", 1)])]
    courseColors := fun _ => 0 }

/-- The same two courses with non-overlapping sessions (09:00-10:00 and
10:00-11:00, back to back). -/
def appDisjoint : AppData :=
  { courses :=
      [⟨"IDA", "A", "Course A", ["AT"]⟩, ⟨"IDB", "B", "Course B", ["AT"]⟩]
    sessions :=
      [("A", [("CLA", [(1, [("AT", [⟨1, "Mon", "09:00", "10:00", "R1"⟩])])])]),
       ("B", [("CLA", [(1, [("AT", [⟨1, "Mon", "10:00", "11:00", "R2"⟩])])])])]
    enrollment := [("A", [("CLA", 1)]), ("B", [("CLA", 1)])]
    courseColors := fun _ => 0 }

/-- A planning state for courses A and B: nothing staged, both visible,
both in detail mode "my". -/
def stPlanningAB : PlanningState :=
  ⟨"planning", [], ["A", "B"], [("A", "my"), ("B", "my")], []⟩

/-- Concrete projected events for the detector witness: two enrolled
events of different courses overlapping on Monday of week 1, plus an
alternative-tagged event at the same time. -/
def exEventA : CalEvent :=
  sessionToEvent ⟨1, "Mon", "09:00", "10:00", "R1"⟩ ⟨"IDA", "A", "Course A", ["AT"]⟩
    ⟨"A", "Course A", "CLA", 1, none, none⟩ 0 "course-color-0" "enrolled"

/-- Second witness event (course B, overlapping time). -/
def exEventB : CalEvent :=
  sessionToEvent ⟨1, "Mon", "09:30", "10:30", "R2"⟩ ⟨"IDB", "B", "Course B", ["AT"]⟩
    ⟨"B", "Course B", "CLA", 1, none, none⟩ 0 "course-color-1" "selected"

/-- Third witness event: an alternative-tagged session at the very same
time as `exEventA`, belonging to a third course. -/
def exEventAlt : CalEvent :=
  sessionToEvent ⟨1, "Mon", "09:00", "10:00", "R3"⟩ ⟨"IDC", "C", "Course C", ["AT"]⟩
    ⟨"C", "Course C", "CLA", 2, none, none⟩ 0 "course-color-2" "alternative"

/-- A state with cached conflicts and no staged changes, and one with
cached conflicts and a staged change, for the applyChanges witness. -/
def stWithConflicts : PlanningState :=
  ⟨"planning", [("EC101_CLA", ⟨"EC101", "CLA", 1, 2⟩)], ["EC101"], [("EC101", "my")],
   ["IDA-undefined-1", "IDB-undefined-1"]⟩

/-! Helper lemmas about the JS map and set models. -/

theorem mem_jsSetAdd [DecidableEq α] {s : List α} {x y : α} :
    y ∈ jsSetAdd s x ↔ y ∈ s ∨ y = x := by
  unfold jsSetAdd
  by_cases h : x ∈ s
  · simp only [if_pos h]
    constructor
    · exact Or.inl
    · rintro (hy | rfl)
      · exact hy
      · exact h
  · simp [if_neg h, List.mem_append]

theorem mapGet_cons_eq [DecidableEq κ] (a : κ) (b : ν) (m : List (κ × ν)) :
    mapGet ((a, b) :: m) a = some b := by
  simp [mapGet]

theorem mapGet_cons_ne [DecidableEq κ] {k a : κ} (b : ν) (m : List (κ × ν))
    (h : k ≠ a) : mapGet ((a, b) :: m) k = mapGet m k := by
  simp [mapGet, h]

theorem mapGet_append [DecidableEq κ] (m l2 : List (κ × ν)) (k : κ) :
    mapGet (m ++ l2) k =
      match mapGet m k with
      | some v => some v
      | none => mapGet l2 k := by
  induction m with
  | nil => rfl
  | cons e m ih =>
    obtain ⟨a, b⟩ := e
    by_cases hk : k = a
    · subst hk
      rw [List.cons_append, mapGet_cons_eq, mapGet_cons_eq]
    · rw [List.cons_append, mapGet_cons_ne _ _ hk, mapGet_cons_ne _ _ hk, ih]

theorem mapDelete_cons [DecidableEq κ] (a : κ) (b : ν) (m : List (κ × ν)) (k : κ) :
    mapDelete ((a, b) :: m) k =
      if a = k then mapDelete m k else (a, b) :: mapDelete m k := by
  by_cases h : a = k <;> simp [mapDelete, List.filter_cons, h]

theorem mapGet_mapDelete_self [DecidableEq κ]
    (m : List (κ × ν)) (k : κ) : mapGet (mapDelete m k) k = none := by
  induction m with
  | nil => rfl
  | cons e m ih =>
    obtain ⟨a, b⟩ := e
    rw [mapDelete_cons]
    by_cases h : a = k
    · simp [h, ih]
    · rw [if_neg h, mapGet_cons_ne _ _ (fun hc => h hc.symm)]
      exact ih

theorem mapGet_mapDelete_ne [DecidableEq κ]
    (m : List (κ × ν)) (k k2 : κ) (hne : k2 ≠ k) :
    mapGet (mapDelete m k) k2 = mapGet m k2 := by
  induction m with
  | nil => rfl
  | cons e m ih =>
    obtain ⟨a, b⟩ := e
    rw [mapDelete_cons]
    by_cases h : a = k
    · rw [if_pos h, ih, mapGet_cons_ne _ _ (h ▸ hne)]
    · rw [if_neg h]
      by_cases h2 : k2 = a
      · subst h2
        rw [mapGet_cons_eq, mapGet_cons_eq]
      · rw [mapGet_cons_ne _ _ h2, mapGet_cons_ne _ _ h2, ih]

theorem mapGet_eq_none_forall [DecidableEq κ] {m : List (κ × ν)} {k : κ}
    (h : mapGet m k = none) : ∀ e ∈ m, e.1 ≠ k := by
  induction m with
  | nil => intro e he; cases he
  | cons e0 m ih =>
    obtain ⟨a, b⟩ := e0
    by_cases hk : k = a
    · subst hk
      rw [mapGet_cons_eq] at h
      cases h
    · rw [mapGet_cons_ne _ _ hk] at h
      intro e2 he2
      rcases List.mem_cons.mp he2 with rfl | h2
      · exact fun hc => hk hc.symm
      · exact ih h e2 h2

theorem mapGet_map_replaceKey [DecidableEq κ]
    (m : List (κ × ν)) (k k2 : κ) (v : ν) (h : k2 ≠ k) :
    mapGet (m.map (fun e => if e.1 = k then (k, v) else e)) k2 = mapGet m k2 := by
  induction m with
  | nil => rfl
  | cons e m ih =>
    obtain ⟨a, b⟩ := e
    by_cases ha : a = k
    · subst ha
      rw [List.map_cons, if_pos rfl, mapGet_cons_ne _ _ h, mapGet_cons_ne _ _ h, ih]
    · by_cases h2 : k2 = a
      · subst h2
        rw [List.map_cons, if_neg ha, mapGet_cons_eq, mapGet_cons_eq]
      · rw [List.map_cons, if_neg ha, mapGet_cons_ne _ _ h2, mapGet_cons_ne _ _ h2, ih]

theorem mapGet_map_replaceKey_self [DecidableEq κ]
    (m : List (κ × ν)) (k : κ) (v : ν) :
    mapGet (m.map (fun e => if e.1 = k then (k, v) else e)) k =
      (mapGet m k).map (fun _ => v) := by
  induction m with
  | nil => rfl
  | cons e m ih =>
    obtain ⟨a, b⟩ := e
    by_cases ha : a = k
    · subst ha
      rw [List.map_cons, if_pos rfl, mapGet_cons_eq, mapGet_cons_eq]
      rfl
    · rw [List.map_cons, if_neg ha, mapGet_cons_ne _ _ (fun hc => ha hc.symm),
        mapGet_cons_ne _ _ (fun hc => ha hc.symm), ih]

theorem mapGet_mapSet [DecidableEq κ]
    (m : List (κ × ν)) (k k2 : κ) (v : ν) :
    mapGet (mapSet m k v) k2 = if k2 = k then some v else mapGet m k2 := by
  unfold mapSet
  split
  next hs =>
    by_cases h : k2 = k
    · subst h
      rw [mapGet_map_replaceKey_self, if_pos rfl]
      obtain ⟨b, hb⟩ := Option.isSome_iff_exists.mp hs
      rw [hb]
      rfl
    · rw [mapGet_map_replaceKey _ _ _ _ h, if_neg h]
  next hs =>
    have hnone : mapGet m k = none := Option.not_isSome_iff_eq_none.mp hs
    rw [mapGet_append]
    by_cases h : k2 = k
    · subst h
      rw [hnone, if_pos rfl, mapGet_cons_eq]
    · rw [if_neg h]
      cases hq : mapGet m k2
      · rw [mapGet_cons_ne _ _ h]
        rfl
      · rfl

theorem mapSet_entry_at_key [DecidableEq κ]
    {m : List (κ × ν)} {k : κ} {v : ν} {e : κ × ν}
    (he : e ∈ mapSet m k v) (hk : e.1 = k) : e = (k, v) := by
  unfold mapSet at he
  split at he
  next hs =>
    obtain ⟨x, hx, hfx⟩ := List.mem_map.mp he
    by_cases hxk : x.1 = k
    · rw [if_pos hxk] at hfx
      exact hfx.symm
    · rw [if_neg hxk] at hfx
      rw [← hfx] at hk
      exact absurd hk hxk
  next hs =>
    have hnone : mapGet m k = none := Option.not_isSome_iff_eq_none.mp hs
    rcases List.mem_append.mp he with h | h
    · exact absurd hk (mapGet_eq_none_forall hnone e h)
    · simpa using h

theorem mem_mapSet [DecidableEq κ] {m : List (κ × ν)} {k : κ} {v : ν} {e : κ × ν}
    (he : e ∈ mapSet m k v) : e ∈ m ∨ e = (k, v) := by
  unfold mapSet at he
  split at he
  next hs =>
    obtain ⟨x, hx, hfx⟩ := List.mem_map.mp he
    by_cases hxk : x.1 = k
    · right
      rw [if_pos hxk] at hfx
      exact hfx.symm
    · left
      rw [if_neg hxk] at hfx
      exact hfx ▸ hx
  next hs =>
    rcases List.mem_append.mp he with h | h
    · exact Or.inl h
    · right
      simpa using h

theorem mem_mapDelete [DecidableEq κ] {m : List (κ × ν)} {k : κ} {e : κ × ν}
    (he : e ∈ mapDelete m k) : e ∈ m :=
  List.mem_of_mem_filter he

theorem mapDelete_idem [DecidableEq κ] (m : List (κ × ν)) (k : κ) :
    mapDelete (mapDelete m k) k = mapDelete m k := by
  unfold mapDelete
  rw [List.filter_filter]
  exact List.filter_congr (by intro e he; cases h : decide (e.1 ≠ k) <;> simp [h])

theorem mapSet_idem [DecidableEq κ] (m : List (κ × ν)) (k : κ) (v : ν) :
    mapSet (mapSet m k v) k v = mapSet m k v := by
  set m2 := mapSet m k v with hm2
  have hs : (mapGet m2 k).isSome := by
    rw [hm2, mapGet_mapSet, if_pos rfl]
    rfl
  have hset : mapSet m2 k v = m2.map (fun e => if e.1 = k then (k, v) else e) := by
    unfold mapSet
    split
    · rfl
    next hcontra => exact absurd hs hcontra
  rw [hset]
  have hpt : ∀ e ∈ m2, (if e.1 = k then (k, v) else e) = e := by
    intro e he
    by_cases hk : e.1 = k
    · rw [if_pos hk, mapSet_entry_at_key (hm2 ▸ he) hk]
    · rw [if_neg hk]
  calc m2.map (fun e => if e.1 = k then (k, v) else e)
      = m2.map id := List.map_congr_left hpt
    _ = m2 := List.map_id _

theorem jsSetOfList_pair_self [DecidableEq α] (a : α) : jsSetOfList [a, a] = [a] := by
  simp [jsSetOfList, jsSetAdd]

theorem stagedInv_selectTutorialGroup {s : PlanningState} (h : stagedInv s)
    (c t : String) (f g : Nat) : stagedInv (selectTutorialGroup c t f g s) := by
  unfold selectTutorialGroup
  by_cases hfg : f = g
  · rw [if_pos hfg]
    intro kc hkc
    exact h kc (mem_mapDelete hkc)
  · rw [if_neg hfg]
    intro kc hkc
    rcases mem_mapSet hkc with hm | he
    · exact h kc hm
    · rw [he]
      exact fun hc => hfg (hc.symm)

/-! Claim theorems. -/

/-- Claim C10: for every action (in particular cancel, save and apply)
and every prior planning state, `exitPlanningMode` sets the mode to
"viewing" and empties the visible-courses set, the per-course detail-mode
map and the cached conflicting-event-id set — the transient
visibility/detail/conflict state is reset on save and apply exactly as on
cancel. -/
theorem C10_exit_resets_transient_state (action : String) (s : PlanningState) :
    (exitPlanningMode action s).2.mode = "viewing" ∧
    (exitPlanningMode action s).2.visibleCourses = [] ∧
    (exitPlanningMode action s).2.showAlternatives = [] ∧
    (exitPlanningMode action s).2.conflictingEventIds = [] :=
  ⟨rfl, rfl, rfl, rfl⟩

/-- Claim C1, counterexample: on a state with one staged change,
`exitPlanningMode("save")` does NOT leave the state machine's own
staged-changes map empty — only "cancel" clears it (part_003 lines
64-66), so the claim's "cleared after handoff" is false as stated. -/
theorem C1_counterexample_save_keeps_staged :
    (exitPlanningMode "save" exStagedState).2.stagedChanges =
      [("EC101_CLA", ⟨"EC101", "CLA", 1, 2⟩)] ∧
    (exitPlanningMode "save" exStagedState).2.stagedChanges ≠ [] := by
  exact ⟨by decide, by decide⟩

/-- Claim C1 (amended): `exitPlanningMode("cancel")` leaves the
staged-changes map empty and returns `null`; for any non-cancel action
(in particular "save" and "apply") it returns a copy of the
staged-changes map to the caller but leaves the state machine's own
staged-changes map unchanged — it is not cleared on handoff (it is
cleared only by the next `enterPlanningMode` or by a successful
`applyChanges`). -/
theorem C1_exit_staged_changes (s : PlanningState) (action : String)
    (haction : action ≠ "cancel") :
    (exitPlanningMode "cancel" s).2.stagedChanges = [] ∧
    (exitPlanningMode "cancel" s).1 = none ∧
    (exitPlanningMode action s).1 = some s.stagedChanges ∧
    (exitPlanningMode action s).2.stagedChanges = s.stagedChanges := by
  refine ⟨by simp [exitPlanningMode], by simp [exitPlanningMode], ?_, ?_⟩ <;>
    simp [exitPlanningMode, haction]

/-- Witness for C1: the amended claim applied to the concrete staged
state and action "save". -/
theorem C1_exit_staged_changes_witness :
    ("save" : String) ≠ "cancel" ∧
    (exitPlanningMode "save" exStagedState).1 = some exStagedState.stagedChanges ∧
    (exitPlanningMode "save" exStagedState).2.stagedChanges = exStagedState.stagedChanges :=
  ⟨by decide,
   (C1_exit_staged_changes exStagedState "save" (by decide)).2.2.1,
   (C1_exit_staged_changes exStagedState "save" (by decide)).2.2.2⟩

/-- Claim C6: with an empty staged-changes map (and no cached conflicts,
or a confirming user), `applyChanges` returns a non-success result whose
message is the "no changes" indicator, distinct from the conflict-abort
"cancelled" message, and never invokes the commit callback; a declined
conflict confirmation returns the non-success "cancelled" result (no
exception — the embedding is total) without invoking the callback. -/
theorem C6_applyChanges_failure_modes (s : PlanningState) (userConfirms : Bool) :
    (s.stagedChanges = [] → (s.conflictingEventIds = [] ∨ userConfirms = true) →
      (applyChanges userConfirms s).1.success = false ∧
      (applyChanges userConfirms s).1.message = "No changes to apply" ∧
      (applyChanges userConfirms s).1.message ≠ "Application cancelled" ∧
      (applyChanges userConfirms s).2.1 = none) ∧
    (s.conflictingEventIds ≠ [] → userConfirms = false →
      (applyChanges userConfirms s).1.success = false ∧
      (applyChanges userConfirms s).1.message = "Application cancelled" ∧
      (applyChanges userConfirms s).2.1 = none) := by
  constructor
  · intro hstaged hok
    have hbase : (applyChanges userConfirms s).1 = ⟨false, "No changes to apply", none⟩ ∧
        (applyChanges userConfirms s).2.1 = none := by
      rcases hok with hc | hu
      · constructor <;> simp [applyChanges, hstaged, hc]
      · constructor <;> simp [applyChanges, hstaged, hu]
    refine ⟨?_, ?_, ?_, hbase.2⟩
    · rw [hbase.1]
    · rw [hbase.1]
    · rw [hbase.1]
      decide
  · intro hc hu
    have hlen : s.conflictingEventIds.length > 0 := by
      cases hq : s.conflictingEventIds
      · exact absurd hq hc
      · simp [hq]
    refine ⟨?_, ?_, ?_⟩ <;> simp [applyChanges, hlen, hu]

/-- Witness for C6: both branches applied to concrete states. -/
theorem C6_applyChanges_failure_modes_witness :
    (initialPlanningState.stagedChanges = [] ∧
     (applyChanges false initialPlanningState).1.message = "No changes to apply") ∧
    (stWithConflicts.conflictingEventIds ≠ [] ∧
     (applyChanges false stWithConflicts).1.message = "Application cancelled") :=
  ⟨⟨by decide,
    ((C6_applyChanges_failure_modes initialPlanningState false).1 (by decide)
      (Or.inl (by decide))).2.1⟩,
   ⟨by decide,
    ((C6_applyChanges_failure_modes stWithConflicts false).2 (by decide) rfl).2.1⟩⟩

/-- Claim C3: `selectTutorialGroup` with `toGroup == fromGroup` removes
any staged change under the key "courseId_groupType" and stores nothing
(all other keys untouched); with `toGroup != fromGroup` it upserts the
`from`/`to` record under that key (all other keys untouched); and calling
it twice with the same arguments equals calling it once. -/
theorem C3_selectTutorialGroup_semantics (s : PlanningState) (c t : String) (f g : Nat) :
    (g = f →
      mapGet (selectTutorialGroup c t f g s).stagedChanges (c ++ "_" ++ t) = none ∧
      ∀ k, k ≠ c ++ "_" ++ t →
        mapGet (selectTutorialGroup c t f g s).stagedChanges k =
          mapGet s.stagedChanges k) ∧
    (g ≠ f →
      mapGet (selectTutorialGroup c t f g s).stagedChanges (c ++ "_" ++ t) =
        some ⟨c, t, f, g⟩ ∧
      ∀ k, k ≠ c ++ "_" ++ t →
        mapGet (selectTutorialGroup c t f g s).stagedChanges k =
          mapGet s.stagedChanges k) ∧
    selectTutorialGroup c t f g (selectTutorialGroup c t f g s) =
      selectTutorialGroup c t f g s := by
  refine ⟨?_, ?_, ?_⟩
  · intro hgf
    have hfg : f = g := hgf.symm
    constructor
    · simp only [selectTutorialGroup, if_pos hfg]
      exact mapGet_mapDelete_self _ _
    · intro k hk
      simp only [selectTutorialGroup, if_pos hfg]
      exact mapGet_mapDelete_ne _ _ _ hk
  · intro hgf
    have hfg : ¬f = g := fun hc => hgf hc.symm
    constructor
    · simp only [selectTutorialGroup, if_neg hfg]
      rw [mapGet_mapSet, if_pos rfl]
    · intro k hk
      simp only [selectTutorialGroup, if_neg hfg]
      rw [mapGet_mapSet, if_neg hk]
  · by_cases hfg : f = g
    · simp [selectTutorialGroup, hfg, mapDelete_idem]
    · simp [selectTutorialGroup, hfg, mapSet_idem]

/-- Claim C7: the no-op-free invariant of the staged-changes map (no
entry whose `to` equals its `from`) is preserved by every operation of
the planning state machine: `enterPlanningMode`, `selectTutorialGroup`,
`exitPlanningMode` (any action), `applyChanges` (any confirmation),
`handleEventClick` (any props/enrollment), and the preference mutations
`toggleCourseVisibility`, `setAlternativeMode`, `restorePreferences`. -/
theorem C7_staged_noop_invariant (s : PlanningState) (hs : stagedInv s)
    (enrolledCourses : List Course) (action : String) (c t : String) (f g : Nat)
    (userConfirms : Bool) (enrollmentData : List (String × List (String × Nat)))
    (props : EventProps) (c2 c3 mode : String) (savedVisible : Option (List String))
    (savedShowAlt : Option (List (String × String))) :
    stagedInv (enterPlanningMode enrolledCourses s) ∧
    stagedInv (selectTutorialGroup c t f g s) ∧
    stagedInv (exitPlanningMode action s).2 ∧
    stagedInv (applyChanges userConfirms s).2.2 ∧
    stagedInv (handleEventClick enrollmentData props s).1 ∧
    stagedInv (toggleCourseVisibility c2 s) ∧
    stagedInv (setAlternativeMode c3 mode s) ∧
    stagedInv (restorePreferences savedVisible savedShowAlt s) := by
  refine ⟨?_, ?_, ?_, ?_, ?_, ?_, ?_, ?_⟩
  · intro kc hkc
    cases hkc
  · exact stagedInv_selectTutorialGroup hs c t f g
  · intro kc hkc
    simp only [exitPlanningMode] at hkc
    by_cases ha : action = "cancel"
    · rw [if_pos ha] at hkc
      cases hkc
    · rw [if_neg ha] at hkc
      exact hs kc hkc
  · intro kc hkc
    unfold applyChanges at hkc
    split at hkc
    · exact hs kc hkc
    · split at hkc
      · exact hs kc hkc
      · cases hkc
  · unfold handleEventClick
    split
    · exact hs
    · split
      · exact hs
      · split
        · exact stagedInv_selectTutorialGroup hs _ _ _ _
        · split
          · exact hs
          · split
            · exact stagedInv_selectTutorialGroup hs _ _ _ _
            · exact hs
  · intro kc hkc
    unfold toggleCourseVisibility at hkc
    split at hkc <;> exact hs kc hkc
  · exact hs
  · intro kc hkc
    unfold restorePreferences at hkc
    split at hkc <;> split at hkc <;> exact hs kc hkc

/-- Witness for C7: the invariant theorem applied to the concrete staged
state (whose single entry has `to = 2 ≠ 1 = from`). -/
theorem C7_staged_noop_invariant_witness :
    stagedInv exStagedState ∧
    stagedInv (selectTutorialGroup "EC101" "SEM" 3 3 exStagedState) :=
  ⟨by decide,
   (C7_staged_noop_invariant exStagedState (by decide) [] "save" "EC101" "SEM" 3 3
      true [] ⟨"", "", "", none, "", 0, none, "", 0, "", "", "", ""⟩ "" "" ""
      none none).2.1⟩

/-- Claim C4: for well-formed intervals (both times of both sessions
normalize), `sessionsConflict` returns false on different days, and on
the same day returns true exactly when `start1 < end2` and
`start2 < end1` on the normalized minute values — so half-open overlap:
back-to-back sessions do not conflict (see the witness at 11:00). -/
theorem C4_sessionsConflict_characterization (s1 s2 : ConflictSession)
    (a1 b1 a2 b2 : Int)
    (h1 : timeToMinutes s1.StartTime = some a1)
    (h2 : timeToMinutes s1.EndTime = some b1)
    (h3 : timeToMinutes s2.StartTime = some a2)
    (h4 : timeToMinutes s2.EndTime = some b2) :
    (s1.DayOfWeek ≠ s2.DayOfWeek → sessionsConflict s1 s2 = false) ∧
    (s1.DayOfWeek = s2.DayOfWeek →
      (sessionsConflict s1 s2 = true ↔ (a1 < b2 ∧ a2 < b1))) := by
  constructor
  · intro hday
    simp [sessionsConflict, hday]
  · intro hday
    simp [sessionsConflict, hday, h1, h2, h3, h4, nanLt]

/-- Witness for C4: back-to-back same-day sessions (10:00-11:00 and
11:00-12:00) evaluate to no conflict, via the characterization. -/
theorem C4_sessionsConflict_witness :
    timeToMinutes "10:00" = some 600 ∧ timeToMinutes "11:00" = some 660 ∧
    timeToMinutes "12:00" = some 720 ∧
    sessionsConflict ⟨"Mon", "10:00", "11:00", 1⟩ ⟨"Mon", "11:00", "12:00", 1⟩ = false := by
  refine ⟨by decide, by decide, by decide, ?_⟩
  have h := (C4_sessionsConflict_characterization
      ⟨"Mon", "10:00", "11:00", 1⟩ ⟨"Mon", "11:00", "12:00", 1⟩ 600 660 660 720
      (by decide) (by decide) (by decide) (by decide)).2 rfl
  cases hb : sessionsConflict ⟨"Mon", "10:00", "11:00", 1⟩ ⟨"Mon", "11:00", "12:00", 1⟩
  · rfl
  · exact absurd (h.mp hb) (by decide)

/-- Claim C5 (code bug evidence): `timeToMinutes` never raises on a
malformed time string — it silently returns NaN (`none`), and that NaN
makes `sessionsConflict` return false even where the well-formed
counterpart reports a real overlap; the specification requires the
normalization to fail loudly instead. -/
theorem C5_malformed_time_silently_nan :
    timeToMinutes "garbage" = none ∧
    sessionsConflict ⟨"Mon", "garbage", "11:00", 1⟩ ⟨"Mon", "10:00", "12:00", 1⟩ = false ∧
    sessionsConflict ⟨"Mon", "09:00", "11:00", 1⟩ ⟨"Mon", "10:00", "12:00", 1⟩ = true :=
  ⟨by decide, by decide, by decide⟩

/-- Evaluation of the normalization on every well-formed 24-hour string. -/
theorem time24_eval : ∀ h : Nat, h < 24 → ∀ m : Nat, m < 60 →
    timeToMinutes (time24 h m) = some ((h : Int) * 60 + m) := by decide

/-- Evaluation of the normalization on every well-formed 12-hour string. -/
theorem time12_eval : ∀ h : Nat, h ≤ 12 → 1 ≤ h → ∀ m : Nat, m < 60 →
    timeToMinutes (time12 h m "AM") = some (((h % 12 : Nat) : Int) * 60 + m) ∧
    timeToMinutes (time12 h m "PM") = some (((h % 12 : Nat) : Int) * 60 + 720 + m) := by
  decide

/-- Claim C9: the normalization accepts both the 24-hour "HH:MM" and the
12-hour "H:MM AM/PM" encodings; 12:00 AM maps to 0 (h = 12 gives
h mod 12 = 0), 12:00 PM maps to 720, any other PM hour gets 720 added to
its 12-hour value, and the two encodings of the same wall-clock time map
to the same minute value. -/
theorem C9_time_normalization :
    (∀ h : Nat, h < 24 → ∀ m : Nat, m < 60 →
      timeToMinutes (time24 h m) = some ((h : Int) * 60 + m)) ∧
    (∀ h : Nat, h ≤ 12 → 1 ≤ h → ∀ m : Nat, m < 60 →
      timeToMinutes (time12 h m "AM") = some (((h % 12 : Nat) : Int) * 60 + m) ∧
      timeToMinutes (time12 h m "PM") = some (((h % 12 : Nat) : Int) * 60 + 720 + m)) ∧
    (∀ h : Nat, h ≤ 12 → 1 ≤ h → ∀ m : Nat, m < 60 →
      timeToMinutes (time12 h m "AM") = timeToMinutes (time24 (h % 12) m) ∧
      timeToMinutes (time12 h m "PM") = timeToMinutes (time24 (h % 12 + 12) m)) := by
  refine ⟨time24_eval, time12_eval, ?_⟩
  intro h h12 h1 m hm
  have hlt : h % 12 < 24 := Nat.lt_of_lt_of_le (Nat.mod_lt h (by omega)) (by omega)
  have hlt2 : h % 12 + 12 < 24 := by
    have := Nat.mod_lt h (show 0 < 12 by omega)
    omega
  constructor
  · rw [(time12_eval h h12 h1 m hm).1, time24_eval (h % 12) hlt m hm]
  · rw [(time12_eval h h12 h1 m hm).2, time24_eval (h % 12 + 12) hlt2 m hm]
    congr 1
    push_cast
    ring

/-- Witness for C9: 9:30 in 24-hour form and 2:30 PM in 12-hour form. -/
theorem C9_time_normalization_witness :
    (9 : Nat) < 24 ∧ (30 : Nat) < 60 ∧ (2 : Nat) ≤ 12 ∧ 1 ≤ (2 : Nat) ∧
    timeToMinutes (time24 9 30) = some 570 ∧
    timeToMinutes (time12 2 30 "PM") = some 870 := by
  refine ⟨by decide, by decide, by decide, by decide, ?_, ?_⟩
  · exact (C9_time_normalization.1 9 (by decide) 30 (by decide)).trans (by decide)
  · exact ((C9_time_normalization.2.1 2 (by decide) (by decide) 30 (by decide)).2).trans
      (by decide)

/-- Membership in the inner-loop accumulator of `detectConflicts`. -/
theorem mem_addConflictsFrom {event1 : CalEvent} {rest : List CalEvent}
    {acc : List String} {x : String} :
    x ∈ addConflictsFrom event1 rest acc ↔
      x ∈ acc ∨ ∃ e2, e2 ∈ rest ∧ conflictPairCond event1 e2 = true ∧
        (x = event1.id ∨ x = e2.id) := by
  induction rest generalizing acc with
  | nil => simp [addConflictsFrom]
  | cons e2 rest ih =>
    have hstep : addConflictsFrom event1 (e2 :: rest) acc =
        addConflictsFrom event1 rest
          (if conflictPairCond event1 e2 then
            jsSetAdd (jsSetAdd acc event1.id) e2.id
          else acc) := rfl
    rw [hstep, ih]
    by_cases hc : conflictPairCond event1 e2 = true
    · rw [if_pos hc]
      simp only [mem_jsSetAdd, List.mem_cons]
      constructor
      · rintro (((hx | hx) | hx) | ⟨e3, he3, hc3, hx3⟩)
        · exact Or.inl hx
        · exact Or.inr ⟨e2, Or.inl rfl, hc, Or.inl hx⟩
        · exact Or.inr ⟨e2, Or.inl rfl, hc, Or.inr hx⟩
        · exact Or.inr ⟨e3, Or.inr he3, hc3, hx3⟩
      · rintro (hx | ⟨e3, he3, hc3, hx3⟩)
        · exact Or.inl (Or.inl (Or.inl hx))
        · rcases he3 with rfl | he3
          · rcases hx3 with hx | hx
            · exact Or.inl (Or.inl (Or.inr hx))
            · exact Or.inl (Or.inr hx)
          · exact Or.inr ⟨e3, he3, hc3, hx3⟩
    · rw [if_neg hc]
      constructor
      · rintro (hx | ⟨e3, he3, hc3, hx3⟩)
        · exact Or.inl hx
        · exact Or.inr ⟨e3, List.mem_cons_of_mem _ he3, hc3, hx3⟩
      · rintro (hx | ⟨e3, he3, hc3, hx3⟩)
        · exact Or.inl hx
        · rcases List.mem_cons.mp he3 with rfl | he3
          · exact absurd hc3 hc
          · exact Or.inr ⟨e3, he3, hc3, hx3⟩

/-- Membership in the double-loop accumulator of `detectConflicts`:
exactly the ids contributed by an ordered pair of the scanned list
satisfying the pair condition. -/
theorem mem_conflictScan {l : List CalEvent} {acc : List String} {x : String} :
    x ∈ conflictScan l acc ↔
      x ∈ acc ∨ ∃ e1 e2, List.Sublist [e1, e2] l ∧ conflictPairCond e1 e2 = true ∧
        (x = e1.id ∨ x = e2.id) := by
  induction l generalizing acc with
  | nil => simp [conflictScan, List.sublist_nil]
  | cons e rest ih =>
    rw [show conflictScan (e :: rest) acc = conflictScan rest (addConflictsFrom e rest acc)
        from rfl, ih, mem_addConflictsFrom]
    constructor
    · rintro ((hx | ⟨e3, he3, hc3, hx3⟩) | ⟨e1, e2, hsub, hc2, hx2⟩)
      · exact Or.inl hx
      · exact Or.inr ⟨e, e3, (List.singleton_sublist.mpr he3).cons₂ e, hc3, hx3⟩
      · exact Or.inr ⟨e1, e2, hsub.cons e, hc2, hx2⟩
    · rintro (hx | ⟨e1, e2, hsub, hc2, hx2⟩)
      · exact Or.inl (Or.inl hx)
      · rcases List.sublist_cons_iff.mp hsub with hsub2 | ⟨t, ht, hts⟩
        · exact Or.inr ⟨e1, e2, hsub2, hc2, hx2⟩
        · have h1 : e1 = e := by injection ht
          have h2 : t = [e2] := by injection ht with hh htl; exact htl.symm
          subst h1
          subst h2
          exact Or.inl (Or.inr ⟨e2, List.singleton_sublist.mp hts, hc2, hx2⟩)

/-- Two distinct members of a list form an ordered pair-sublist in one of
the two orders. -/
theorem pair_sublist_of_mem {a b : α} {l : List α} (ha : a ∈ l) (hb : b ∈ l)
    (hne : a ≠ b) : List.Sublist [a, b] l ∨ List.Sublist [b, a] l := by
  induction l with
  | nil => cases ha
  | cons c t ih =>
    rcases List.mem_cons.mp ha with rfl | hat
    · have hbt : b ∈ t := by
        rcases List.mem_cons.mp hb with rfl | h
        · exact absurd rfl hne
        · exact h
      exact Or.inl ((List.singleton_sublist.mpr hbt).cons₂ a)
    · rcases List.mem_cons.mp hb with rfl | hbt
      · exact Or.inr ((List.singleton_sublist.mpr hat).cons₂ b)
      · rcases ih hat hbt with h | h
        · exact Or.inl (h.cons c)
        · exact Or.inr (h.cons c)

/-- `sessionsConflict` is symmetric. -/
theorem sessionsConflict_symm (s1 s2 : ConflictSession) :
    sessionsConflict s1 s2 = sessionsConflict s2 s1 := by
  unfold sessionsConflict
  by_cases h : s1.DayOfWeek = s2.DayOfWeek
  · have h1 : ¬s1.DayOfWeek ≠ s2.DayOfWeek := by simp [h]
    have h2 : ¬s2.DayOfWeek ≠ s1.DayOfWeek := by simp [h]
    rw [if_neg h1, if_neg h2]
    exact Bool.and_comm _ _
  · rw [if_pos h, if_pos (fun hc => h hc.symm)]

/-- The inner-loop condition of `detectConflicts` in terms of its
components. -/
theorem conflictPairCond_iff {e1 e2 : CalEvent} :
    conflictPairCond e1 e2 = true ↔
      e1.id ≠ e2.id ∧
      e1.extendedProps.courseId ≠ e2.extendedProps.courseId ∧
      e1.extendedProps.weekNumber = e2.extendedProps.weekNumber ∧
      sessionsConflict (toConflictSession e1) (toConflictSession e2) = true := by
  unfold conflictPairCond
  by_cases h1 : e1.id == e2.id
  · rw [if_pos h1]
    constructor
    · intro hfalse
      cases hfalse
    · rintro ⟨hne, -⟩
      exact absurd (by simpa using h1) hne
  · rw [if_neg h1]
    have hne1 : e1.id ≠ e2.id := by simpa using h1
    by_cases h2 : e1.extendedProps.courseId == e2.extendedProps.courseId
    · rw [if_pos h2]
      constructor
      · intro hfalse
        cases hfalse
      · rintro ⟨-, hnc, -⟩
        exact absurd (by simpa using h2) hnc
    · rw [if_neg h2]
      have hne2 : e1.extendedProps.courseId ≠ e2.extendedProps.courseId := by simpa using h2
      simp only [toConflictSession, Bool.and_eq_true, beq_iff_eq]
      constructor
      · rintro ⟨hw, hc⟩
        exact ⟨hne1, hne2, hw, hc⟩
      · rintro ⟨-, -, hw, hc⟩
        exact ⟨hw, hc⟩

/-- Claim C2: `detectConflicts` returns exactly the ids of events whose
display state is enrolled, selected or lecture that overlap (same week
number, same day, overlapping times per `sessionsConflict`) with another
such eligible event (one with a different id) belonging to a different
course; both ids of each overlapping pair are in the result, and every id
in the result is the id of an eligible event — so an event tagged
"alternative" never contributes its id. -/
theorem C2_detectConflicts_characterization (events : List CalEvent) :
    (∀ x : String, x ∈ detectConflicts events ↔
      ∃ e1, e1 ∈ events ∧ isRelevantEvent e1 = true ∧
        ∃ e2, e2 ∈ events ∧ isRelevantEvent e2 = true ∧
          x = e1.id ∧ e1.id ≠ e2.id ∧
          e1.extendedProps.courseId ≠ e2.extendedProps.courseId ∧
          e1.extendedProps.weekNumber = e2.extendedProps.weekNumber ∧
          sessionsConflict (toConflictSession e1) (toConflictSession e2) = true) ∧
    (∀ e1 e2 : CalEvent, e1 ∈ events → e2 ∈ events →
      isRelevantEvent e1 = true → isRelevantEvent e2 = true →
      e1.id ≠ e2.id →
      e1.extendedProps.courseId ≠ e2.extendedProps.courseId →
      e1.extendedProps.weekNumber = e2.extendedProps.weekNumber →
      sessionsConflict (toConflictSession e1) (toConflictSession e2) = true →
      e1.id ∈ detectConflicts events ∧ e2.id ∈ detectConflicts events) ∧
    (∀ x ∈ detectConflicts events, ∃ e, e ∈ events ∧ isRelevantEvent e = true ∧
      x = e.id ∧ e.extendedProps.eventState ≠ "alternative") := by
  have hmain : ∀ x : String, x ∈ detectConflicts events ↔
      ∃ e1, e1 ∈ events ∧ isRelevantEvent e1 = true ∧
        ∃ e2, e2 ∈ events ∧ isRelevantEvent e2 = true ∧
          x = e1.id ∧ e1.id ≠ e2.id ∧
          e1.extendedProps.courseId ≠ e2.extendedProps.courseId ∧
          e1.extendedProps.weekNumber = e2.extendedProps.weekNumber ∧
          sessionsConflict (toConflictSession e1) (toConflictSession e2) = true := by
    intro x
    unfold detectConflicts
    rw [mem_conflictScan]
    simp only [List.not_mem_nil, false_or]
    constructor
    · rintro ⟨e1, e2, hsub, hc, hx⟩
      have h1m := List.mem_filter.mp (hsub.subset (List.mem_cons_self _ _))
      have h2m := List.mem_filter.mp (hsub.subset (show e2 ∈ [e1, e2] by simp))
      rcases conflictPairCond_iff.mp hc with ⟨hid, hcourse, hweek, hconf⟩
      rcases hx with rfl | rfl
      · exact ⟨e1, h1m.1, h1m.2, e2, h2m.1, h2m.2, rfl, hid, hcourse, hweek, hconf⟩
      · exact ⟨e2, h2m.1, h2m.2, e1, h1m.1, h1m.2, rfl, Ne.symm hid, Ne.symm hcourse,
          hweek.symm, by rw [sessionsConflict_symm]; exact hconf⟩
    · rintro ⟨e1, he1, hr1, e2, he2, hr2, rfl, hid, hcourse, hweek, hconf⟩
      have h1f : e1 ∈ events.filter isRelevantEvent := List.mem_filter.mpr ⟨he1, hr1⟩
      have h2f : e2 ∈ events.filter isRelevantEvent := List.mem_filter.mpr ⟨he2, hr2⟩
      have hne : e1 ≠ e2 := fun hc2 => hid (congrArg CalEvent.id hc2)
      rcases pair_sublist_of_mem h1f h2f hne with hs | hs
      · exact ⟨e1, e2, hs, conflictPairCond_iff.mpr ⟨hid, hcourse, hweek, hconf⟩, Or.inl rfl⟩
      · exact ⟨e2, e1, hs, conflictPairCond_iff.mpr ⟨Ne.symm hid, Ne.symm hcourse, hweek.symm,
          by rw [sessionsConflict_symm]; exact hconf⟩, Or.inr rfl⟩
  refine ⟨hmain, ?_, ?_⟩
  · intro e1 e2 he1 he2 hr1 hr2 hid hcourse hweek hconf
    exact ⟨(hmain e1.id).mpr ⟨e1, he1, hr1, e2, he2, hr2, rfl, hid, hcourse, hweek, hconf⟩,
      (hmain e2.id).mpr ⟨e2, he2, hr2, e1, he1, hr1, rfl, Ne.symm hid, Ne.symm hcourse,
        hweek.symm, by rw [sessionsConflict_symm]; exact hconf⟩⟩
  · intro x hx
    rcases (hmain x).mp hx with ⟨e1, he1, hr1, e2, he2, hr2, hxe, -⟩
    refine ⟨e1, he1, hr1, hxe, ?_⟩
    intro hstate
    have : isRelevantEvent e1 = false := by simp [isRelevantEvent, hstate]
    rw [this] at hr1
    cases hr1

/-- The lecture loop normal form: iterating all entries with a non-LEC
guard equals iterating the LEC-filtered entries. -/
theorem flatMap_guard_filter {β : Type _} (l : List (String × Nat)) (g : String × Nat → List β) :
    l.flatMap (fun entry => if entry.1 ≠ "LEC" then [] else g entry) =
      (l.filter (fun e => e.1 == "LEC")).flatMap g := by
  induction l with
  | nil => rfl
  | cons e t ih =>
    rw [List.flatMap_cons, List.filter_cons, ih]
    by_cases h : e.1 = "LEC"
    · rw [if_neg (by simp [h]), if_pos (by simp [h]), List.flatMap_cons]
    · rw [if_pos h, if_neg (by simp [h])]
      simp

/-- The tutorial loop normal form: iterating the filtered key list and
reading each value back through the map equals iterating the filtered
entry list, provided the keys are duplicate-free (JS object keys are). -/
theorem flatMap_keys_mapGet {ν β : Type _} (l : List (String × ν)) (p : String → Bool)
    (f : String → ν → List β) (d : ν) :
    (l.map Prod.fst).Nodup →
    ((l.map Prod.fst).filter p).flatMap (fun k => f k ((mapGet l k).getD d)) =
      (l.filter (fun e => p e.1)).flatMap (fun e => f e.1 e.2) := by
  induction l with
  | nil => intro _; rfl
  | cons e t ih =>
    intro hnd
    obtain ⟨a, b⟩ := e
    rw [List.map_cons] at hnd
    obtain ⟨hk, hndt⟩ := List.nodup_cons.mp hnd
    have htail : ((t.map Prod.fst).filter p).flatMap
        (fun k => f k ((mapGet ((a, b) :: t) k).getD d)) =
        ((t.map Prod.fst).filter p).flatMap (fun k => f k ((mapGet t k).getD d)) := by
      apply List.flatMap_congr
      intro k hkf
      have hkt : k ∈ t.map Prod.fst := List.mem_of_mem_filter hkf
      have hka : k ≠ a := fun hc => hk (hc ▸ hkt)
      rw [mapGet_cons_ne _ _ hka]
    by_cases hp : p a
    · rw [List.map_cons, List.filter_cons, if_pos (by simpa using hp),
        List.flatMap_cons, htail, ih hndt, List.filter_cons, if_pos (by simpa using hp),
        List.flatMap_cons, mapGet_cons_eq]
      rfl
    · rw [List.map_cons, List.filter_cons, if_neg (by simpa using hp), htail, ih hndt,
        List.filter_cons, if_neg (by simpa using hp)]

/-- Marking with an empty conflict set changes nothing. -/
theorem markConflicts_nil (events : List CalEvent) : markConflicts [] events = events := by
  unfold markConflicts
  simp

/-- Pointwise-permutation congruence for flatMap. -/
theorem flatMap_perm_congr {γ β : Type _} (l : List γ) (f g : γ → List β)
    (h : ∀ c ∈ l, List.Perm (f c) (g c)) : List.Perm (l.flatMap f) (l.flatMap g) := by
  induction l with
  | nil => exact List.Perm.refl _
  | cons c t ih =>
    rw [List.flatMap_cons, List.flatMap_cons]
    exact List.Perm.append (h c (List.mem_cons_self _ _))
      (ih (fun c2 hc2 => h c2 (List.mem_cons_of_mem _ hc2)))

/-- With nothing staged, the selected group is the enrolled group. -/
theorem getSelectedGroup_empty (st : PlanningState) (hstaged : st.stagedChanges = [])
    (courseId groupType : String) (enrolledGroupNumber : Nat) :
    getSelectedGroup courseId groupType enrolledGroupNumber st = enrolledGroupNumber := by
  unfold getSelectedGroup
  rw [hstaged]
  rfl

/-- With selected = enrolled, the "my" loop collapses to the single
enrolled group tagged "enrolled". -/
theorem addMySessionsEvents_same (app : AppData) (course : Course) (groupType : String)
    (n : Nat) (termCode : String) (weekNumber : Nat) (weekStart : Int)
    (colorClass : String) :
    addMySessionsEvents app course groupType n n termCode weekNumber weekStart colorClass =
      weekEventsFor app course groupType n termCode weekNumber weekStart colorClass
        "enrolled" := by
  unfold addMySessionsEvents
  rw [jsSetOfList_pair_self, List.flatMap_cons]
  rw [if_neg (by simp)]
  simp

/-- Per-course refinement: with nothing staged, the course visible and
detail mode "my", the planning-mode course events are a permutation of
the viewing-mode course events. -/
theorem planningCourse_perm_viewingCourse (st : PlanningState) (app : AppData)
    (termCode : String) (weekNumber : Nat) (weekStart : Int) (course : Course)
    (hstaged : st.stagedChanges = [])
    (hvis : st.visibleCourses.contains course.CourseCode = true)
    (hmy : jsOrDefault (mapGet st.showAlternatives course.CourseCode) "my" = "my")
    (hnd : (((mapGet app.enrollment course.CourseCode).getD []).map Prod.fst).Nodup) :
    List.Perm (viewingCourseEvents app termCode weekNumber weekStart course)
      (planningCourseEvents st app termCode weekNumber weekStart course) := by
  unfold viewingCourseEvents planningCourseEvents
  rw [hvis]
  simp only [Bool.not_true, Bool.false_eq_true, if_false]
  cases henr : mapGet app.enrollment course.CourseCode with
  | none => exact List.Perm.refl _
  | some enrollment =>
    rw [henr] at hnd
    simp only [Option.getD_some] at hnd
    simp only [hmy]
    have hmyif : ∀ (a b : List CalEvent),
        (if (("my" : String) == "my") = true then a else b) = a :=
      fun a b => if_pos (by decide)
    simp only [hmyif]
    have hlec : addLectureEvents app course enrollment termCode weekNumber weekStart
        (colorClassFor app course.CourseCode) =
        (enrollment.filter (fun e => e.1 == "LEC")).flatMap
          (fun entry => weekEventsFor app course entry.1 entry.2 termCode weekNumber
            weekStart (colorClassFor app course.CourseCode)
            (if entry.1 == "LEC" then "lecture" else "enrolled")) := by
      unfold addLectureEvents
      rw [flatMap_guard_filter]
      apply List.flatMap_congr
      intro e he
      have hel : (e.1 == "LEC") = true := (List.mem_filter.mp he).2
      rw [if_pos hel]
    have htut : ((enrollment.map Prod.fst).filter (fun t => t ≠ "LEC")).flatMap
        (fun groupType =>
          addMySessionsEvents app course groupType ((mapGet enrollment groupType).getD 0)
            (getSelectedGroup course.CourseCode groupType
              ((mapGet enrollment groupType).getD 0) st)
            termCode weekNumber weekStart (colorClassFor app course.CourseCode)) =
        (enrollment.filter (fun e => !(e.1 == "LEC"))).flatMap
          (fun entry => weekEventsFor app course entry.1 entry.2 termCode weekNumber
            weekStart (colorClassFor app course.CourseCode)
            (if entry.1 == "LEC" then "lecture" else "enrolled")) := by
      have hfn : ∀ groupType,
          addMySessionsEvents app course groupType ((mapGet enrollment groupType).getD 0)
            (getSelectedGroup course.CourseCode groupType
              ((mapGet enrollment groupType).getD 0) st)
            termCode weekNumber weekStart (colorClassFor app course.CourseCode) =
          weekEventsFor app course groupType ((mapGet enrollment groupType).getD 0)
            termCode weekNumber weekStart (colorClassFor app course.CourseCode)
            "enrolled" := by
        intro groupType
        rw [getSelectedGroup_empty st hstaged, addMySessionsEvents_same]
      calc ((enrollment.map Prod.fst).filter (fun t => t ≠ "LEC")).flatMap
            (fun groupType =>
              addMySessionsEvents app course groupType
                ((mapGet enrollment groupType).getD 0)
                (getSelectedGroup course.CourseCode groupType
                  ((mapGet enrollment groupType).getD 0) st)
                termCode weekNumber weekStart (colorClassFor app course.CourseCode))
          = ((enrollment.map Prod.fst).filter (fun t => t ≠ "LEC")).flatMap
            (fun groupType =>
              weekEventsFor app course groupType ((mapGet enrollment groupType).getD 0)
                termCode weekNumber weekStart (colorClassFor app course.CourseCode)
                "enrolled") := List.flatMap_congr (fun groupType _ => hfn groupType)
        _ = (enrollment.filter (fun e => (fun t => t ≠ "LEC") e.1)).flatMap
            (fun entry => weekEventsFor app course entry.1 entry.2 termCode weekNumber
              weekStart (colorClassFor app course.CourseCode) "enrolled") :=
          flatMap_keys_mapGet enrollment (fun t => t ≠ "LEC")
            (fun groupType n => weekEventsFor app course groupType n termCode weekNumber
              weekStart (colorClassFor app course.CourseCode) "enrolled") 0 hnd
        _ = (enrollment.filter (fun e => !(e.1 == "LEC"))).flatMap
            (fun entry => weekEventsFor app course entry.1 entry.2 termCode weekNumber
              weekStart (colorClassFor app course.CourseCode)
              (if entry.1 == "LEC" then "lecture" else "enrolled")) := by
          rw [show (fun e : String × Nat => decide (e.1 ≠ "LEC")) =
              (fun e : String × Nat => !(e.1 == "LEC")) from funext (fun e => by
                by_cases h : e.1 = "LEC" <;> simp [h])]
          apply List.flatMap_congr
          intro e he
          have hel : (!(e.1 == "LEC")) = true := (List.mem_filter.mp he).2
          have hne : (e.1 == "LEC") = false := by
            cases hq : (e.1 == "LEC")
            · rfl
            · rw [hq] at hel
              cases hel
          rw [if_neg (by simp [hne])]
    rw [hlec, htut]
    have hsplit := List.filter_append_perm (fun e : String × Nat => e.1 == "LEC") enrollment
    have hperm := List.Perm.flatMap_right
      (fun entry : String × Nat => weekEventsFor app course entry.1 entry.2 termCode
        weekNumber weekStart (colorClassFor app course.CourseCode)
        (if entry.1 == "LEC" then "lecture" else "enrolled")) hsplit
    rw [List.flatMap_append] at hperm
    exact hperm.symm

/-- Claim C8, counterexample: with empty staged changes, both courses
visible and detail mode "my", the planning projection is NOT a
permutation of the viewing projection when the baseline itself has a
cross-course overlap — the planning pipeline additionally pushes the
"event-conflict" class onto the overlapping events. -/
theorem C8_counterexample_conflict_marking :
    stPlanningAB.stagedChanges = [] ∧
    (∀ c ∈ getEnrolledCoursesForTerm appOverlap "AT",
      stPlanningAB.visibleCourses.contains c.CourseCode = true) ∧
    (∀ c ∈ getEnrolledCoursesForTerm appOverlap "AT",
      jsOrDefault (mapGet stPlanningAB.showAlternatives c.CourseCode) "my" = "my") ∧
    ¬ List.Perm (getEventsForWeek appOverlap "AT" 1 0)
      (getEventsForPlanningMode stPlanningAB appOverlap "AT" 1 0).1 :=
  ⟨rfl, by decide, by decide, by decide⟩

/-- Claim C8 (amended): with empty staged changes, all enrolled courses
visible, detail mode "my" for every enrolled course, duplicate-free
enrollment keys, and NO conflicts among the projected events, the
viewing-mode projection equals the planning-mode projection up to
ordering.  (When the detector does find conflicts, the planning
projection differs exactly by the "event-conflict" markings — see the
counterexample.) -/
theorem C8_viewing_is_planning_degenerate (app : AppData) (termCode : String)
    (weekNumber : Nat) (weekStart : Int) (st : PlanningState)
    (hstaged : st.stagedChanges = [])
    (hvis : ∀ c ∈ getEnrolledCoursesForTerm app termCode,
      st.visibleCourses.contains c.CourseCode = true)
    (hmy : ∀ c ∈ getEnrolledCoursesForTerm app termCode,
      jsOrDefault (mapGet st.showAlternatives c.CourseCode) "my" = "my")
    (hnd : ∀ c ∈ getEnrolledCoursesForTerm app termCode,
      (((mapGet app.enrollment c.CourseCode).getD []).map Prod.fst).Nodup)
    (hnoconf : detectConflicts
      (getEventsForPlanningModeRaw st app termCode weekNumber weekStart) = []) :
    List.Perm (getEventsForWeek app termCode weekNumber weekStart)
      (getEventsForPlanningMode st app termCode weekNumber weekStart).1 := by
  have hraw : List.Perm (getEventsForWeek app termCode weekNumber weekStart)
      (getEventsForPlanningModeRaw st app termCode weekNumber weekStart) := by
    unfold getEventsForWeek getEventsForPlanningModeRaw
    exact flatMap_perm_congr _ _ _
      (fun c hc => planningCourse_perm_viewingCourse st app termCode weekNumber weekStart c
        hstaged (hvis c hc) (hmy c hc) (hnd c hc))
  show List.Perm _ (markConflicts
    (detectConflicts (getEventsForPlanningModeRaw st app termCode weekNumber weekStart))
    (getEventsForPlanningModeRaw st app termCode weekNumber weekStart))
  rw [hnoconf, markConflicts_nil]
  exact hraw

/-- Witness for C8: the amended claim applied to the back-to-back
two-course fixture, where the detector finds no conflicts. -/
theorem C8_viewing_is_planning_degenerate_witness :
    stPlanningAB.stagedChanges = [] ∧
    detectConflicts (getEventsForPlanningModeRaw stPlanningAB appDisjoint "AT" 1 0) = [] ∧
    List.Perm (getEventsForWeek appDisjoint "AT" 1 0)
      (getEventsForPlanningMode stPlanningAB appDisjoint "AT" 1 0).1 :=
  ⟨rfl, by decide,
   C8_viewing_is_planning_degenerate appDisjoint "AT" 1 0 stPlanningAB rfl
     (by decide) (by decide) (by decide) (by decide)⟩

end LSE
